import Mathlib

/-!
Shallow embedding of the storchastic core (src/storch/tensor.py and
src/storch/method/baseline.py): the tensor graph-node data model with its
plate validation, the deterministic / independent / stochastic variants,
the depth-first graph walk, and the baseline strategies.  Underlying
numeric tensors are modelled by their shape (a list of dimension sizes),
and where values matter, by a flat list of rationals.
-/

/-- A plate: a named, sized independent dimension (source: `Plate = Tuple[str, int]`). -/
abbrev Plate := String × Nat

/-- The validation errors the core can raise (each `raise ValueError`
site of the source gets one constructor; `illegalConditional` is the
`IllegalConditionalError` of `Tensor.__bool__`). -/
inductive TErr where
  | duplicatePlate (plate : String)
  | shapeTooSmall (dim : Nat)
  | shapeMismatch (dim : Nat) (plate : String)
  | costParent
  | missingCostName
  | nameCollision (plate : String)
  | indexError
  | illegalConditional
  deriving DecidableEq

/-- Plate-structure validation errors: those raised by the plate loop of
`Tensor.__init__` (duplicate plate name, tensor too small, dimension
mismatch). -/
def TErr.isPlateErr : TErr → Bool
  | .duplicatePlate _ => true
  | .shapeTooSmall _ => true
  | .shapeMismatch _ _ => true
  | _ => false

/-- A storch graph node: the underlying tensor is modelled by its shape.
Fields mirror the attributes set by `Tensor.__init__` and its variants
(`is_cost` on DeterministicTensor, `n`/`stochastic` on Independent- and
StochasticTensor). -/
structure SNode where
  shape : List Nat
  is_cost : Bool
  stochastic : Bool
  n : Nat
  name : Option String
  batch_links : List Plate
  batch_len : Nat
  event_shape : List Nat
  deriving DecidableEq

/-- The plate loop of `Tensor.__init__` (tensor.py lines 24-47): walks
`batch_links` keeping the set of seen plate names and the running
`batch_len`; duplicate names error, size-1 plates are skipped, other
plates must match the tensor dimension at index `batch_len`.  Returns the
final `batch_len`. -/
def checkLinks (shape : List Nat) : List Plate → List String → Nat → Except TErr Nat
  | [], _, bl => .ok bl
  | (pn, k) :: rest, seen, bl =>
    if pn ∈ seen then .error (.duplicatePlate pn)
    else if k = 1 then checkLinks shape rest (pn :: seen) bl
    else
      match shape[bl]? with
      | none => .error (.shapeTooSmall bl)
      | some s => if s = k then checkLinks shape rest (pn :: seen) (bl + 1)
                  else .error (.shapeMismatch bl pn)

/-- `shapeMatches shape bl sizes` holds when `shape` carries the listed
`sizes` at consecutive indices starting at `bl`. -/
def shapeMatches (shape : List Nat) : Nat → List Nat → Bool
  | _, [] => true
  | bl, s :: rest => (shape[bl]? == some s) && shapeMatches shape (bl + 1) rest

/-- The sizes of the plates the validation loop does not skip (size ≠ 1),
in order. -/
def sizesNe1 (links : List Plate) : List Nat :=
  (links.filter (fun p => p.2 != 1)).map Prod.snd

/-- The sizes of the plates of size > 1, in order (the sizes of the
source's `multi_dim_plates`). -/
def multiDimSizes (links : List Plate) : List Nat :=
  (links.filter (fun p => decide (1 < p.2))).map Prod.snd

/-- `Tensor.__init__` (tensor.py lines 22-61): validate the plate
structure, refuse cost-node parents, then record `batch_len`,
`event_shape` (trailing dimensions) and `batch_links`. -/
def tensorInit (shape : List Nat) (parents : List SNode) (links : List Plate)
    (name : Option String) : Except TErr SNode :=
  match checkLinks shape links [] 0 with
  | .error e => .error e
  | .ok bl =>
    if parents.any (fun p => p.is_cost) then .error .costParent
    else .ok { shape := shape, is_cost := false, stochastic := false, n := 0,
               name := name, batch_links := links, batch_len := bl,
               event_shape := shape.drop bl }

/-- `DeterministicTensor.__init__` (tensor.py lines 375-383) together with
the process-wide pending-cost registry `storch.inference._cost_tensors`
(threaded explicitly): after the base construction, a cost node under
enabled gradient tracking is appended to the registry, and only then is
the missing-name check performed. -/
def deterministicInit (shape : List Nat) (parents : List SNode) (links : List Plate)
    (is_cost : Bool) (name : Option String) (gradEnabled : Bool)
    (registry : List SNode) : Except TErr SNode × List SNode :=
  match tensorInit shape parents links name with
  | .error e => (.error e, registry)
  | .ok base =>
    let node := { base with is_cost := is_cost }
    if is_cost && gradEnabled then
      let registry' := registry ++ [node]
      if name.isNone then (.error .missingCostName, registry')
      else (.ok node, registry')
    else (.ok node, registry)

/-- `IndependentTensor.__init__` (tensor.py lines 396-406): `n` is the
first dimension of the tensor (indexing error on a 0-dimensional tensor),
the new plate name must not collide with an existing plate, and the plate
`(name, n)` is inserted at the front of `batch_links` before the base
construction. -/
def independentInit (shape : List Nat) (parents : List SNode) (links : List Plate)
    (name : String) : Except TErr SNode :=
  match shape with
  | [] => .error .indexError
  | n0 :: _ =>
    if links.any (fun q => q.1 == name) then .error (.nameCollision name)
    else
      match tensorInit shape parents ((name, n0) :: links) (some name) with
      | .error e => .error e
      | .ok node => .ok { node with n := n0 }

/-- `StochasticTensor.__init__` (tensor.py lines 411-425): same collision
check against the supplied `batch_links`, then the plate `(name, n)` is
inserted at the front before the base construction; the node stores `n`
and is stochastic. -/
def stochasticInit (shape : List Nat) (parents : List SNode) (links : List Plate)
    (n : Nat) (name : String) : Except TErr SNode :=
  if links.any (fun q => q.1 == name) then .error (.nameCollision name)
  else
    match tensorInit shape parents ((name, n) :: links) (some name) with
    | .error e => .error e
    | .ok node => .ok { node with n := n, stochastic := true }

/-- `Tensor.__bool__` (tensor.py lines 368-371): converting a node to a
truth value always raises `IllegalConditionalError`. -/
def boolCoerce (_ : SNode) : Except TErr Bool :=
  .error .illegalConditional

/-- The success condition of the plate loop relative to an accumulated
seen-set and start offset. -/
def linksOK (shape : List Nat) (links : List Plate) (seen : List String) (bl : Nat) : Prop :=
  (links.map Prod.fst).Nodup ∧ (∀ nm ∈ links.map Prod.fst, nm ∉ seen) ∧
    shapeMatches shape bl (sizesNe1 links) = true

theorem checkLinks_spec (shape : List Nat) (links : List Plate) (seen : List String) (bl : Nat) :
    (checkLinks shape links seen bl = .ok (bl + (sizesNe1 links).length) ∧
       linksOK shape links seen bl) ∨
    ((∃ e, checkLinks shape links seen bl = .error e ∧ e.isPlateErr = true) ∧
       ¬ linksOK shape links seen bl) := by
  induction links generalizing seen bl with
  | nil =>
    left
    simp [checkLinks, sizesNe1, linksOK, shapeMatches]
  | cons p rest ih =>
    obtain ⟨pn, k⟩ := p
    by_cases hmem : pn ∈ seen
    · right
      constructor
      · exact ⟨.duplicatePlate pn, by simp [checkLinks, hmem], rfl⟩
      · rintro ⟨-, hfresh, -⟩
        exact hfresh pn (by simp) hmem
    · by_cases hk : k = 1
      · subst hk
        have hsz : sizesNe1 ((pn, 1) :: rest) = sizesNe1 rest := by
          simp [sizesNe1, List.filter]
        have hstep : checkLinks shape ((pn, 1) :: rest) seen bl =
            checkLinks shape rest (pn :: seen) bl := by
          simp [checkLinks, hmem]
        rcases ih (pn :: seen) bl with ⟨hok, hnd, hfresh, hsh⟩ | ⟨herr, hbad⟩
        · left
          refine ⟨by rw [hstep, hsz]; exact hok, ?_, ?_, ?_⟩
          · refine List.nodup_cons.mpr ⟨?_, hnd⟩
            intro hpn
            exact (hfresh pn hpn) (by simp)
          · intro nm hnm
            rcases List.mem_cons.mp hnm with h | h
            · subst h; exact hmem
            · intro hin
              exact (hfresh nm h) (by simp [hin])
          · rw [hsz]; exact hsh
        · right
          constructor
          · rw [hstep]; exact herr
          · rintro ⟨hnd, hfresh, hsh⟩
            refine hbad ⟨(List.nodup_cons.mp hnd).2, ?_, ?_⟩
            · intro nm hnm
              intro hin
              rcases List.mem_cons.mp hin with h | h
              · subst h
                exact (List.nodup_cons.mp hnd).1 hnm
              · exact (hfresh nm (by simp [hnm])) h
            · rw [hsz] at hsh; exact hsh
      · have hkb : (k != 1) = true := by simpa using hk
        have hszc : sizesNe1 ((pn, k) :: rest) = k :: sizesNe1 rest := by
          simp [sizesNe1, List.filter_cons, hkb]
        cases hget : shape[bl]? with
        | none =>
          right
          constructor
          · exact ⟨.shapeTooSmall bl, by simp [checkLinks, hmem, hk, hget], rfl⟩
          · rintro ⟨-, -, hsh⟩
            rw [hszc] at hsh
            simp [shapeMatches, hget] at hsh
        | some s =>
          by_cases hs : s = k
          · subst hs
            have hstep : checkLinks shape ((pn, s) :: rest) seen bl =
                checkLinks shape rest (pn :: seen) (bl + 1) := by
              simp [checkLinks, hmem, hk, hget]
            rcases ih (pn :: seen) (bl + 1) with ⟨hok, hnd, hfresh, hsh⟩ | ⟨herr, hbad⟩
            · left
              refine ⟨?_, ?_, ?_, ?_⟩
              · rw [hstep, hszc]
                simpa [Nat.add_comm, Nat.add_assoc, Nat.add_left_comm] using hok
              · refine List.nodup_cons.mpr ⟨?_, hnd⟩
                intro hpn
                exact (hfresh pn hpn) (by simp)
              · intro nm hnm
                rcases List.mem_cons.mp hnm with h | h
                · subst h; exact hmem
                · intro hin
                  exact (hfresh nm h) (by simp [hin])
              · rw [hszc]
                simp [shapeMatches, hget, hsh]
            · right
              constructor
              · rw [hstep]; exact herr
              · rintro ⟨hnd, hfresh, hsh⟩
                refine hbad ⟨(List.nodup_cons.mp hnd).2, ?_, ?_⟩
                · intro nm hnm
                  intro hin
                  rcases List.mem_cons.mp hin with h | h
                  · subst h
                    exact (List.nodup_cons.mp hnd).1 hnm
                  · exact (hfresh nm (by simp [hnm])) h
                · rw [hszc] at hsh
                  simp [shapeMatches, hget] at hsh
                  exact hsh
          · right
            constructor
            · exact ⟨.shapeMismatch bl pn, by simp [checkLinks, hmem, hk, hget, hs], rfl⟩
            · rintro ⟨-, -, hsh⟩
              rw [hszc] at hsh
              simp [shapeMatches, hget] at hsh
              exact hs hsh.1

theorem linksOK_nil_seen (shape : List Nat) (links : List Plate) :
    linksOK shape links [] 0 ↔
      ((links.map Prod.fst).Nodup ∧ shapeMatches shape 0 (sizesNe1 links) = true) := by
  unfold linksOK
  simp

theorem sizesNe1_eq_multiDimSizes (links : List Plate) (hsz : ∀ p ∈ links, 1 ≤ p.2) :
    sizesNe1 links = multiDimSizes links := by
  unfold sizesNe1 multiDimSizes
  congr 1
  apply List.filter_congr
  intro p hp
  have h1 := hsz p hp
  by_cases h : p.2 = 1
  · simp [h]
  · have h2 : 1 < p.2 := lt_of_le_of_ne h1 (fun hc => h hc.symm)
    simp [h, h2]

theorem tensorInit_eq_ok (shape : List Nat) (parents : List SNode) (links : List Plate)
    (name : Option String) (bl : Nat)
    (hck : checkLinks shape links [] 0 = .ok bl)
    (hany : parents.any (fun p => p.is_cost) = false) :
    tensorInit shape parents links name =
      .ok { shape := shape, is_cost := false, stochastic := false, n := 0,
            name := name, batch_links := links, batch_len := bl,
            event_shape := shape.drop bl } := by
  unfold tensorInit
  rw [hck, hany]
  rfl

theorem tensorInit_eq_error (shape : List Nat) (parents : List SNode) (links : List Plate)
    (name : Option String) (e : TErr)
    (hck : checkLinks shape links [] 0 = .error e) :
    tensorInit shape parents links name = .error e := by
  unfold tensorInit
  rw [hck]

theorem tensorInit_err_elim (shape : List Nat) (parents : List SNode) (links : List Plate)
    (name : Option String) (e : TErr) (bl : Nat)
    (hck : checkLinks shape links [] 0 = .ok bl)
    (h : tensorInit shape parents links name = .error e) :
    e = .costParent := by
  unfold tensorInit at h
  rw [hck] at h
  cases hany : parents.any (fun p => p.is_cost) with
  | true =>
    rw [hany] at h
    have h2 : (Except.error TErr.costParent : Except TErr SNode) = .error e := h
    cases h2
    rfl
  | false =>
    rw [hany] at h
    simp at h

/-- Claim C2: for every list of plates and every underlying tensor whose
leading dimensions match the sizes of the declared plates of size > 1
(singleton plates consuming no dimension), node construction succeeds and
the node's `batch_len` equals the number of plates in `batch_links` with
size strictly greater than 1 (plates of size 1 contribute zero), and
`event_shape` is the tensor's trailing dimensions beyond `batch_len`. -/
theorem claim_C2_batch_len (shape : List Nat) (parents : List SNode) (links : List Plate)
    (name : Option String)
    (hsz : ∀ p ∈ links, 1 ≤ p.2)
    (hnd : (links.map Prod.fst).Nodup)
    (hsh : shapeMatches shape 0 (multiDimSizes links) = true)
    (hpar : ∀ p ∈ parents, p.is_cost = false) :
    ∃ node, tensorInit shape parents links name = .ok node ∧
      node.batch_len = (links.filter (fun p => decide (1 < p.2))).length ∧
      node.event_shape = shape.drop node.batch_len ∧
      node.batch_links = links := by
  have hbridge := sizesNe1_eq_multiDimSizes links hsz
  have hok : linksOK shape links [] 0 := by
    rw [linksOK_nil_seen, hbridge]
    exact ⟨hnd, hsh⟩
  have hany : parents.any (fun p => p.is_cost) = false := by
    rw [List.any_eq_false]
    intro p hp
    simp [hpar p hp]
  rcases checkLinks_spec shape links [] 0 with ⟨hck, -⟩ | ⟨-, hbad⟩
  · refine ⟨_, tensorInit_eq_ok shape parents links name _ hck hany, ?_, rfl, rfl⟩
    show 0 + (sizesNe1 links).length = _
    rw [hbridge]
    simp [multiDimSizes]
  · exact absurd hok hbad

theorem claim_C2_batch_len_witness :
    (∀ p ∈ ([("a", 2), ("b", 1), ("c", 3)] : List Plate), 1 ≤ p.2) ∧
    ∃ node, tensorInit [2, 3, 7] [] [("a", 2), ("b", 1), ("c", 3)] none = .ok node ∧
      node.batch_len =
        (([("a", 2), ("b", 1), ("c", 3)] : List Plate).filter (fun p => decide (1 < p.2))).length ∧
      node.event_shape = [2, 3, 7].drop node.batch_len ∧
      node.batch_links = [("a", 2), ("b", 1), ("c", 3)] :=
  ⟨by decide,
   claim_C2_batch_len [2, 3, 7] [] [("a", 2), ("b", 1), ("c", 3)] none
     (by decide) (by decide) (by decide) (by decide)⟩

/-- Claim C3: node construction fails with a plate structural-validation
error (duplicate plate name, tensor with too few dimensions, or dimension
mismatch — each error carrying the offending plate name or dimension
index) exactly when the supplied `batch_links` contain two entries with
the same plate name, or the underlying tensor's leading dimensions do not
match the sizes of the plates of size > 1. -/
theorem claim_C3_plate_errors (shape : List Nat) (parents : List SNode) (links : List Plate)
    (name : Option String)
    (hsz : ∀ p ∈ links, 1 ≤ p.2) :
    (∃ e, tensorInit shape parents links name = .error e ∧ e.isPlateErr = true) ↔
      ¬((links.map Prod.fst).Nodup ∧ shapeMatches shape 0 (multiDimSizes links) = true) := by
  have hbridge := sizesNe1_eq_multiDimSizes links hsz
  rcases checkLinks_spec shape links [] 0 with ⟨hck, hok⟩ | ⟨⟨e, herr, hpe⟩, hbad⟩
  · constructor
    · rintro ⟨e, herr, hpe⟩
      have he := tensorInit_err_elim shape parents links name e _ hck herr
      subst he
      simp [TErr.isPlateErr] at hpe
    · intro hbad
      rw [linksOK_nil_seen, hbridge] at hok
      exact absurd hok hbad
  · constructor
    · intro _
      rw [linksOK_nil_seen, hbridge] at hbad
      exact hbad
    · intro _
      exact ⟨e, tensorInit_eq_error shape parents links name e herr, hpe⟩

theorem claim_C3_plate_errors_witness :
    (∀ p ∈ ([("a", 2)] : List Plate), 1 ≤ p.2) ∧
    (∃ e, tensorInit [5] [] [("a", 2)] none = .error e ∧ e.isPlateErr = true) :=
  ⟨by decide,
   (claim_C3_plate_errors [5] [] [("a", 2)] none (by decide)).mpr (by decide)⟩

theorem tensorInit_ok_no_cost_parent (shape : List Nat) (parents : List SNode)
    (links : List Plate) (name : Option String) (base : SNode)
    (h : tensorInit shape parents links name = .ok base) :
    parents.any (fun p => p.is_cost) = false := by
  unfold tensorInit at h
  cases hck : checkLinks shape links [] 0 with
  | error e =>
    rw [hck] at h
    simp at h
  | ok bl =>
    rw [hck] at h
    cases hany : parents.any (fun p => p.is_cost) with
    | false => rfl
    | true =>
      rw [hany] at h
      simp at h

/-- Claim C1 (code bug): constructing a cost-flagged deterministic node
without a name while gradient tracking is enabled raises the missing-name
error, but only after the node has been appended to the pending-cost
registry — the registry grows from empty to one entry and so the invalid
node would reach the backward orchestrator, contradicting the claim that
a failed construction leaves the registry unchanged. -/
theorem claim_C1_registry_mutated_on_failure :
    (deterministicInit [] [] [] true none true []).1 = Except.error TErr.missingCostName ∧
    (deterministicInit [] [] [] true none true []).2 =
      [{ shape := [], is_cost := true, stochastic := false, n := 0, name := none,
         batch_links := [], batch_len := 0, event_shape := [] }] ∧
    (deterministicInit [] [] [] true none true []).2.length = 1 := by
  refine ⟨rfl, rfl, rfl⟩

/-- Claim C4, counterexample: with gradient tracking disabled, a
cost-flagged deterministic node without a name is constructed
successfully — the claim that such a construction always fails is false
at this input. -/
theorem claim_C4_counterexample :
    (deterministicInit [] [] [] true none false []).1 =
      Except.ok { shape := [], is_cost := true, stochastic := false, n := 0, name := none,
                  batch_links := [], batch_len := 0, event_shape := [] } := rfl

/-- Claim C4, amended: if any supplied parent is a terminal cost node the
construction (base, hence of any variant) fails; and constructing a
cost-flagged deterministic node without a name fails when gradient
tracking is enabled. -/
theorem claim_C4_cost_failures (shape : List Nat) (parents : List SNode) (links : List Plate)
    (is_cost : Bool) (name : Option String) (gradEnabled : Bool) (registry : List SNode) :
    ((∃ p ∈ parents, p.is_cost = true) →
        ∃ e, tensorInit shape parents links name = .error e) ∧
    ((∃ p ∈ parents, p.is_cost = true) →
        ∃ e, (deterministicInit shape parents links is_cost name gradEnabled registry).1 =
          .error e) ∧
    ((is_cost = true ∧ gradEnabled = true ∧ name = none) →
        ∃ e, (deterministicInit shape parents links is_cost name gradEnabled registry).1 =
          .error e) := by
  have hbase : (∃ p ∈ parents, p.is_cost = true) →
      ∃ e, tensorInit shape parents links name = .error e := by
    rintro ⟨p, hp, hc⟩
    cases ht : tensorInit shape parents links name with
    | error e => exact ⟨e, rfl⟩
    | ok base =>
      have hany := tensorInit_ok_no_cost_parent shape parents links name base ht
      rw [List.any_eq_false] at hany
      exact absurd hc (hany p hp)
  refine ⟨hbase, ?_, ?_⟩
  · intro hex
    obtain ⟨e, he⟩ := hbase hex
    refine ⟨e, ?_⟩
    unfold deterministicInit
    rw [he]
  · rintro ⟨h1, h2, h3⟩
    subst h1
    subst h2
    subst h3
    cases ht : tensorInit shape parents links none with
    | error e =>
      refine ⟨e, ?_⟩
      unfold deterministicInit
      rw [ht]
    | ok base =>
      refine ⟨.missingCostName, ?_⟩
      unfold deterministicInit
      rw [ht]
      rfl

theorem claim_C4_cost_failures_witness :
    ((true, true, (none : Option String)) = (true, true, none) ∧
      ∃ e, (deterministicInit [] [] [] true none true []).1 = .error e) :=
  ⟨rfl, (claim_C4_cost_failures [] [] [] true none true []).2.2 ⟨rfl, rfl, rfl⟩⟩

/-- Claim C5: for a node with plates `links` (hence distinct plate names)
and an Independent or Stochastic node built on it introducing plate `P`:
if `P` already occurs in `links` the construction fails with the
name-collision error; if `P` is fresh (and the tensor shape matches the
combined plates, parents carrying no cost node), construction succeeds
and the new node's `batch_links` has `P` first followed by the original
plates in their original order. -/
theorem claim_C5_new_plate_front (n0 : Nat) (restShape : List Nat) (parents : List SNode)
    (links : List Plate) (P : String) (n : Nat)
    (hnd : (links.map Prod.fst).Nodup)
    (hpar : ∀ p ∈ parents, p.is_cost = false) :
    ((∃ q ∈ links, q.1 = P) →
        stochasticInit (n0 :: restShape) parents links n P = .error (.nameCollision P) ∧
        independentInit (n0 :: restShape) parents links P = .error (.nameCollision P)) ∧
    ((∀ q ∈ links, q.1 ≠ P) →
        (shapeMatches (n0 :: restShape) 0 (sizesNe1 ((P, n) :: links)) = true →
          ∃ node, stochasticInit (n0 :: restShape) parents links n P = .ok node ∧
            node.batch_links = (P, n) :: links ∧ node.stochastic = true ∧ node.n = n) ∧
        (shapeMatches (n0 :: restShape) 0 (sizesNe1 ((P, n0) :: links)) = true →
          ∃ node, independentInit (n0 :: restShape) parents links P = .ok node ∧
            node.batch_links = (P, n0) :: links ∧ node.n = n0)) := by
  have hany : parents.any (fun p => p.is_cost) = false := by
    rw [List.any_eq_false]
    intro p hp
    simp [hpar p hp]
  constructor
  · rintro ⟨q, hq, hq1⟩
    have hcol : links.any (fun q => q.1 == P) = true :=
      List.any_eq_true.mpr ⟨q, hq, by simp [hq1]⟩
    constructor
    · unfold stochasticInit
      rw [hcol]
      rfl
    · simp only [independentInit]
      rw [hcol]
      rfl
  · intro hfresh
    have hcolf : links.any (fun q => q.1 == P) = false := by
      rw [List.any_eq_false]
      intro q hq
      simp [hfresh q hq]
    have hok : ∀ m : Nat, shapeMatches (n0 :: restShape) 0 (sizesNe1 ((P, m) :: links)) = true →
        linksOK (n0 :: restShape) ((P, m) :: links) [] 0 := by
      intro m hsh
      rw [linksOK_nil_seen]
      refine ⟨?_, hsh⟩
      refine List.nodup_cons.mpr ⟨?_, hnd⟩
      intro hmem
      obtain ⟨q, hq, hq1⟩ := List.mem_map.mp hmem
      exact hfresh q hq hq1
    constructor
    · intro hsh
      rcases checkLinks_spec (n0 :: restShape) ((P, n) :: links) [] 0 with ⟨hck, -⟩ | ⟨-, hbad⟩
      · have heq := tensorInit_eq_ok (n0 :: restShape) parents ((P, n) :: links) (some P) _ hck hany
        refine ⟨{ shape := n0 :: restShape, is_cost := false, stochastic := true, n := n,
                  name := some P, batch_links := (P, n) :: links,
                  batch_len := 0 + (sizesNe1 ((P, n) :: links)).length,
                  event_shape :=
                    (n0 :: restShape).drop (0 + (sizesNe1 ((P, n) :: links)).length) },
                ?_, rfl, rfl, rfl⟩
        unfold stochasticInit
        rw [hcolf, heq]
        rfl
      · exact absurd (hok n hsh) hbad
    · intro hsh
      rcases checkLinks_spec (n0 :: restShape) ((P, n0) :: links) [] 0 with ⟨hck, -⟩ | ⟨-, hbad⟩
      · have heq := tensorInit_eq_ok (n0 :: restShape) parents ((P, n0) :: links) (some P) _ hck hany
        refine ⟨{ shape := n0 :: restShape, is_cost := false, stochastic := false, n := n0,
                  name := some P, batch_links := (P, n0) :: links,
                  batch_len := 0 + (sizesNe1 ((P, n0) :: links)).length,
                  event_shape :=
                    (n0 :: restShape).drop (0 + (sizesNe1 ((P, n0) :: links)).length) },
                ?_, rfl, rfl⟩
        simp only [independentInit]
        rw [hcolf, heq]
        rfl
      · exact absurd (hok n0 hsh) hbad

theorem claim_C5_new_plate_front_witness :
    (∀ q ∈ ([("a", 2)] : List Plate), q.1 ≠ "s") ∧
    (∃ node, stochasticInit [3, 2] [] [("a", 2)] 3 "s" = .ok node ∧
      node.batch_links = [("s", 3), ("a", 2)] ∧ node.stochastic = true ∧ node.n = 3) ∧
    (∃ node, independentInit [3, 2] [] [("a", 2)] "s" = .ok node ∧
      node.batch_links = [("s", 3), ("a", 2)] ∧ node.n = 3) :=
  ⟨by decide,
   ((claim_C5_new_plate_front 3 [2] [] [("a", 2)] "s" 3 (by decide) (by decide)).2
      (by decide)).1 (by decide),
   ((claim_C5_new_plate_front 3 [2] [] [("a", 2)] "s" 3 (by decide) (by decide)).2
      (by decide)).2 (by decide)⟩

/-- The depth-first branch of `Tensor._walk` (tensor.py lines 150-161),
with an explicit fuel bound: the stack is kept top-first (Python appends
to and pops from the end of the list, so the expansion of a node is
pushed in order and its last entry is visited first); a node is yielded
when popped unless it was already visited and `repeatVisited` is off, and
its expansion is pushed filtered by the differentiable-edge flag when
`onlyDiff` is on. -/
def walkDF (expand : Nat → List (Nat × Bool)) (onlyDiff repeatVisited : Bool) :
    Nat → List Nat → List Nat → List Nat
  | 0, _, _ => []
  | _ + 1, [], _ => []
  | fuel + 1, v :: stack, visited =>
    if repeatVisited || !(visited.contains v) then
      v :: walkDF expand onlyDiff repeatVisited fuel
        ((((expand v).filter (fun wd => wd.2 || !onlyDiff)).map Prod.fst).reverse ++ stack)
        (v :: visited)
    else
      walkDF expand onlyDiff repeatVisited fuel stack visited

/-- `walk_parents` expansion of the diamond graph A→B, A→C, B→D, C→D,
with D = 0, B = 1, C = 2, A = 3: each node's parents in construction
order, every edge differentiable. -/
def diamondParents : Nat → List (Nat × Bool)
  | 0 => [(1, true), (2, true)]
  | 1 => [(3, true)]
  | 2 => [(3, true)]
  | _ => []

/-- Claim C6: depth-first `walk_parents` on the diamond graph A→B, A→C,
B→D, C→D starting at D with `repeat_visited` disabled yields the shared
ancestor A (= 3) exactly once and every node D, B, C, A exactly once
overall; the traversal is finite — it is already complete at fuel 16, so
a larger fuel bound yields the same sequence. -/
theorem claim_C6_diamond_walk :
    walkDF diamondParents false false 16 [0] [] = [0, 2, 3, 1] ∧
    walkDF diamondParents false false 1000 [0] [] = [0, 2, 3, 1] ∧
    (walkDF diamondParents false false 16 [0] []).count 3 = 1 ∧
    (walkDF diamondParents false false 16 [0] []).count 0 = 1 ∧
    (walkDF diamondParents false false 16 [0] []).count 1 = 1 ∧
    (walkDF diamondParents false false 16 [0] []).count 2 = 1 := by
  refine ⟨rfl, ?_, rfl, rfl, rfl, rfl⟩
  rfl

/-- The persistent state of `MovingAverageBaseline` (baseline.py lines
18-26): the decay rate and the current average, both buffers of the
module, modelled as rationals. -/
structure MovingAverageBaseline where
  exponential_decay : ℚ
  moving_average : ℚ
  deriving DecidableEq

/-- `MovingAverageBaseline.compute_baseline` (baseline.py lines 28-36) on
an already plate-reduced, detached cost value: updates the stored average
to `decay * old + (1 - decay) * reduced_cost` and returns the updated
state together with the returned value. -/
def MovingAverageBaseline.compute_baseline (b : MovingAverageBaseline) (reduced_cost : ℚ) :
    MovingAverageBaseline × ℚ :=
  let m := b.exponential_decay * b.moving_average + (1 - b.exponential_decay) * reduced_cost
  ({ b with moving_average := m }, m)

/-- Claim C7: the moving-average baseline keeps its decay rate across
calls and stores the returned average, the returned value being
`decay * old_average + (1 - decay) * reduced_cost`; with decay 0.9,
initial average 0 and sequential reduced costs 10 then 20, the two calls
return 1 and then 2.9 = 29/10. -/
theorem claim_C7_moving_average :
    (∀ (b : MovingAverageBaseline) (c : ℚ),
      (b.compute_baseline c).1.exponential_decay = b.exponential_decay ∧
      (b.compute_baseline c).1.moving_average = (b.compute_baseline c).2 ∧
      (b.compute_baseline c).2 =
        b.exponential_decay * b.moving_average + (1 - b.exponential_decay) * c) ∧
    (MovingAverageBaseline.compute_baseline ⟨9/10, 0⟩ 10).2 = 1 ∧
    ((MovingAverageBaseline.compute_baseline ⟨9/10, 0⟩ 10).1.compute_baseline 20).2 = 29/10 := by
  refine ⟨fun b c => ⟨rfl, rfl, rfl⟩, ?_, ?_⟩
  · norm_num [MovingAverageBaseline.compute_baseline]
  · norm_num [MovingAverageBaseline.compute_baseline]

/-- `BatchAverageBaseline.compute_baseline` (baseline.py lines 42-52) on
the detached per-sample costs along the sampling plate of a stochastic
node with `n` samples: refuses `n = 1`, otherwise subtracts each cost
from the plate sum and divides by `n - 1`. -/
def BatchAverageBaseline.compute_baseline (n : Nat) (costs : List ℚ) :
    Except String (List ℚ) :=
  if n = 1 then
    .error "Can only use the batch average baseline if multiple samples are used."
  else
    .ok (costs.map (fun c => (costs.sum - c) / ((n : ℚ) - 1)))

/-- Claim C8: the batch-average baseline fails exactly when the sample
count `n` is 1; for `n > 1` it returns elementwise the leave-one-out
value `(sum of costs - cost) / (n - 1)`; with costs [1, 2, 3] and n = 3
it returns [5/2, 2, 3/2]. -/
theorem claim_C8_batch_average (n : Nat) (costs : List ℚ) :
    ((∃ e, BatchAverageBaseline.compute_baseline n costs = .error e) ↔ n = 1) ∧
    (1 < n →
      BatchAverageBaseline.compute_baseline n costs =
        .ok (costs.map (fun c => (costs.sum - c) / ((n : ℚ) - 1)))) ∧
    BatchAverageBaseline.compute_baseline 3 [1, 2, 3] = .ok [5/2, 2, 3/2] := by
  refine ⟨⟨?_, ?_⟩, ?_, ?_⟩
  · rintro ⟨e, he⟩
    by_cases h : n = 1
    · exact h
    · simp [BatchAverageBaseline.compute_baseline, h] at he
  · intro h
    subst h
    exact ⟨_, rfl⟩
  · intro h
    have h1 : ¬ n = 1 := by omega
    simp [BatchAverageBaseline.compute_baseline, h1]
  · norm_num [BatchAverageBaseline.compute_baseline, List.map]

theorem claim_C8_batch_average_witness :
    (1 : Nat) < 3 ∧
    BatchAverageBaseline.compute_baseline 3 [1, 2, 3] =
      .ok ([1, 2, 3].map (fun c => (([1, 2, 3] : List ℚ).sum - c) / ((3 : ℚ) - 1))) :=
  ⟨by norm_num, (claim_C8_batch_average 3 [1, 2, 3]).2.1 (by norm_num)⟩

/-- A numeric tensor with values: a shape and the flat (row-major) data,
as rationals. -/
structure TensorQ where
  shape : List Nat
  data : List ℚ
  deriving DecidableEq

/-- `grad.mean(dim=indices)` for `indices = batch_dim_indices() =
[0, ..., k-1]` (tensor.py lines 443, 449): averaging over the leading `k`
dimensions jointly; in the flat row-major layout the result at offset `j`
is the average over the `b` leading blocks of extent `e`. -/
def meanLeading (k : Nat) (t : TensorQ) : TensorQ :=
  let b := (t.shape.take k).prod
  let e := (t.shape.drop k).prod
  { shape := t.shape.drop k,
    data := (List.range e).map
      (fun j => (((List.range b).map (fun i => t.data.getD (i * e + j) 0)).sum) / (b : ℚ)) }

/-- `StochasticTensor.total_expected_grad` (tensor.py lines 441-450):
builds the result mapping entry by entry over the accumulated gradients;
a gradient whose dimensionality equals that of the distribution parameter
of the same name (given by `paramDim`) is kept, otherwise it is averaged
over the node's batch dimensions `[0, ..., batch_len - 1]`. -/
def total_expected_grad (batch_len : Nat) (paramDim : String → Nat)
    (accumGrads : List (String × TensorQ)) : List (String × TensorQ) :=
  accumGrads.foldl
    (fun r pg =>
      r ++ [(pg.1, if pg.2.shape.length = paramDim pg.1 then pg.2
                   else meanLeading batch_len pg.2)]) []

theorem total_expected_grad_foldl (batch_len : Nat) (paramDim : String → Nat)
    (accumGrads : List (String × TensorQ)) (acc : List (String × TensorQ)) :
    accumGrads.foldl
      (fun r pg =>
        r ++ [(pg.1, if pg.2.shape.length = paramDim pg.1 then pg.2
                     else meanLeading batch_len pg.2)]) acc =
      acc ++ accumGrads.map
        (fun pg => (pg.1, if pg.2.shape.length = paramDim pg.1 then pg.2
                          else meanLeading batch_len pg.2)) := by
  induction accumGrads generalizing acc with
  | nil => simp
  | cons pg rest ih =>
    simp only [List.foldl_cons, List.map_cons]
    rw [ih]
    simp

/-- Claim C9: `total_expected_grad` keys the result by parameter name
with one entry per accumulated parameter, and for every entry
`(name, grad)` of the accumulated-gradient mapping the result carries
`grad` unchanged under `name` when `grad`'s number of dimensions equals
that of the distribution parameter named `name`, and otherwise `grad`'s
mean over the node's batch dimension indices. -/
theorem claim_C9_total_expected_grad (batch_len : Nat) (paramDim : String → Nat)
    (accumGrads : List (String × TensorQ)) (nm : String) (g : TensorQ)
    (h : (nm, g) ∈ accumGrads) :
    (total_expected_grad batch_len paramDim accumGrads).map Prod.fst =
      accumGrads.map Prod.fst ∧
    (nm, if g.shape.length = paramDim nm then g else meanLeading batch_len g) ∈
      total_expected_grad batch_len paramDim accumGrads := by
  have heq : total_expected_grad batch_len paramDim accumGrads =
      accumGrads.map
        (fun pg => (pg.1, if pg.2.shape.length = paramDim pg.1 then pg.2
                          else meanLeading batch_len pg.2)) := by
    unfold total_expected_grad
    rw [total_expected_grad_foldl]
    simp
  constructor
  · rw [heq, List.map_map]
    rfl
  · rw [heq]
    exact List.mem_map_of_mem _ h

theorem claim_C9_total_expected_grad_witness :
    ("loc", TensorQ.mk [2] [1, 3]) ∈ [("loc", TensorQ.mk [2] [1, 3])] ∧
    ("loc", TensorQ.mk [] [2]) ∈
      total_expected_grad 1 (fun _ => 0) [("loc", TensorQ.mk [2] [1, 3])] := by
  refine ⟨List.mem_singleton.mpr rfl, ?_⟩
  have h := (claim_C9_total_expected_grad 1 (fun _ => 0) [("loc", TensorQ.mk [2] [1, 3])]
    "loc" (TensorQ.mk [2] [1, 3]) (List.mem_singleton.mpr rfl)).2
  have he : (if (TensorQ.mk [2] [1, 3]).shape.length = 0 then TensorQ.mk [2] [1, 3]
      else meanLeading 1 (TensorQ.mk [2] [1, 3])) = TensorQ.mk [] [2] := by
    have h1 : List.range 1 = [0] := rfl
    have h2 : List.range 2 = [0, 1] := rfl
    rw [if_neg (by norm_num)]
    simp [meanLeading, h1, h2]
    norm_num
  rw [he] at h
  exact h

/-- Claim C10: coercing any node, of any variant and any shape, to a
boolean truth value fails with the illegal-conditional error and never
yields a truth value. -/
theorem claim_C10_bool_coercion (t : SNode) :
    boolCoerce t = .error .illegalConditional ∧ ∀ b : Bool, boolCoerce t ≠ .ok b := by
  exact ⟨rfl, fun b h => by cases h⟩

theorem claim_C10_bool_coercion_witness :
    boolCoerce { shape := [2], is_cost := false, stochastic := false, n := 0, name := none,
                 batch_links := [("a", 2)], batch_len := 1, event_shape := [] } =
      .error .illegalConditional ∧
    boolCoerce { shape := [2], is_cost := false, stochastic := false, n := 0, name := none,
                 batch_links := [("a", 2)], batch_len := 1, event_shape := [] } ≠
      .ok true :=
  ⟨(claim_C10_bool_coercion { shape := [2], is_cost := false, stochastic := false, n := 0,
                              name := none, batch_links := [("a", 2)], batch_len := 1,
                              event_shape := [] }).1,
   (claim_C10_bool_coercion { shape := [2], is_cost := false, stochastic := false, n := 0,
                              name := none, batch_links := [("a", 2)], batch_len := 1,
                              event_shape := [] }).2 true⟩
